import Mathlib

/-!
Verification of the nft_market_go marketplace core: a shallow embedding of
the order store upsert (internal/store/order_store.go), the marketplace
event scanner (internal/chain, `part_004`), the Redis lock (internal/lock,
`part_001`) and the nft_assets store (`part_003`), together with theorems
settling the specification claims about idempotence, ordering, terminal
states, lock semantics and the scan watermark.
-/

set_option autoImplicit false

namespace NftMarket

/-! ### Order data model (internal/store/order_store.go) -/

/-- `OrderStatus` from order_store.go: lifecycle state of a marketplace listing. -/
inductive OrderStatus
  | init
  | listed
  | locked
  | settling
  | success
  | failed
  | canceled
deriving DecidableEq, Repr

/-- The `Order` struct from order_store.go. `order_id` (store-assigned
autoincrement) and the two timestamps are omitted: every claim is about the
logical column content keyed by `listing_id` (the spec itself treats
`updated_at` bumps as content-irrelevant). -/
structure Order where
  listingID : Int
  seller : String
  buyer : String
  nftName : String
  nftAddress : String
  url : String
  tokenID : Int
  amount : Int
  price : String
  status : OrderStatus
  txHash : String
  deleted : Int
deriving DecidableEq, Repr

/-- The `orders` table, as a map from `listing_id` (the unique key used by
the upsert) to the row stored under it. -/
def OrderTable : Type := Int → Option Order

/-- The table with no rows. -/
def emptyOrderTable : OrderTable := fun _ => none

/-- `upsertOrder` from order_store.go: `INSERT ... ON DUPLICATE KEY UPDATE`
keyed on `listing_id`; every non-key column is overwritten unconditionally
from the supplied value. -/
def upsertOrder (tbl : OrderTable) (o : Order) : OrderTable :=
  fun lid => if lid = o.listingID then some o else tbl lid

/-- Database errors surfaced by `GetByID`: `sql.ErrNoRows` for a missing
row, or any other failure (transport, timeout, ...). -/
inductive DbErr
  | noRows
  | transport (msg : String)
deriving DecidableEq, Repr

/-- `GetByID` from order_store.go against an in-memory table: returns the
row stored under the listing id or `sql.ErrNoRows`. (The scanner handlers
are additionally analysed below against an arbitrary `Except DbErr Order`
lookup outcome, covering transport failures.) -/
def lookupOrder (tbl : OrderTable) (lid : Int) : Except DbErr Order :=
  match tbl lid with
  | some o => .ok o
  | none => .error .noRows

/-! ### Scanner event handlers (internal/chain, `part_004`) -/

/-- Decoded payload of a `Listed(listingId, seller, nft, tokenId, amount,
price)` event as `handleListed` extracts it from topics and data. -/
structure ListedEvent where
  listingID : Int
  seller : String
  nftAddress : String
  tokenID : Int
  amount : Int
  price : String
  txHash : String
deriving DecidableEq, Repr

/-- The order record `handleListed` constructs from a `Listed` event and
upserts: a full row with `status = LISTED`; `Buyer`, `NFTName`, `URL` are
the Go zero values. -/
def listedOrder (e : ListedEvent) : Order :=
  { listingID := e.listingID
    seller := e.seller
    buyer := ""
    nftName := ""
    nftAddress := e.nftAddress
    url := ""
    tokenID := e.tokenID
    amount := e.amount
    price := e.price
    status := .listed
    txHash := e.txHash
    deleted := 0 }

/-- `handleListed`: build the order from the event and upsert it
(the event is authoritative; no lookup, no status check). -/
def handleListed (tbl : OrderTable) (e : ListedEvent) : OrderTable :=
  upsertOrder tbl (listedOrder e)

/-- The order `handleCancelled` upserts, as a function of the lookup
outcome: on any lookup error, a minimal placeholder (only listing id,
status `CANCELED`, tx hash; every other field the Go zero value); on a
found row, the row with `Status` and `TxHash` overwritten. -/
def cancelledOrder (lid : Int) (tx : String) (r : Except DbErr Order) : Order :=
  match r with
  | .error _ =>
      { listingID := lid
        seller := ""
        buyer := ""
        nftName := ""
        nftAddress := ""
        url := ""
        tokenID := 0
        amount := 0
        price := ""
        status := .canceled
        txHash := tx
        deleted := 0 }
  | .ok existing => { existing with status := .canceled, txHash := tx }

/-- `handleCancelled` with its `GetByID` outcome made explicit (the Go code
branches on `err != nil`, not on the error's kind). -/
def handleCancelledCore (tbl : OrderTable) (lid : Int) (tx : String)
    (r : Except DbErr Order) : OrderTable :=
  upsertOrder tbl (cancelledOrder lid tx r)

/-- `handleCancelled` from `part_004`: look up by listing id; on any error
upsert a placeholder, otherwise overwrite status to `CANCELED` and the tx
hash and upsert. -/
def handleCancelled (tbl : OrderTable) (lid : Int) (tx : String) : OrderTable :=
  handleCancelledCore tbl lid tx (lookupOrder tbl lid)

/-- The order `handleSold` upserts, as a function of the lookup outcome:
on any lookup error, a minimal record with buyer, status `SUCCESS`, tx
hash; on a found row, the row with `Buyer`, `Status`, `TxHash`
overwritten. -/
def soldOrder (lid : Int) (buyer tx : String) (r : Except DbErr Order) : Order :=
  match r with
  | .error _ =>
      { listingID := lid
        seller := ""
        buyer := buyer
        nftName := ""
        nftAddress := ""
        url := ""
        tokenID := 0
        amount := 0
        price := ""
        status := .success
        txHash := tx
        deleted := 0 }
  | .ok existing => { existing with buyer := buyer, status := .success, txHash := tx }

/-- `handleSold` with its `GetByID` outcome made explicit. -/
def handleSoldCore (tbl : OrderTable) (lid : Int) (buyer tx : String)
    (r : Except DbErr Order) : OrderTable :=
  upsertOrder tbl (soldOrder lid buyer tx r)

/-- `handleSold` from `part_004`. -/
def handleSold (tbl : OrderTable) (lid : Int) (buyer tx : String) : OrderTable :=
  handleSoldCore tbl lid buyer tx (lookupOrder tbl lid)

/-- The three marketplace events `handleLog` dispatches on (topic-0
signatures `Listed` / `Cancelled` / `Sold`; other signatures are ignored
and leave the table unchanged, so they are not modelled). -/
inductive MarketEvent
  | listedEv (e : ListedEvent)
  | cancelledEv (lid : Int) (tx : String)
  | soldEv (lid : Int) (buyer tx : String)
deriving DecidableEq, Repr

/-- `handleLog`'s dispatch: apply the matching handler. -/
def applyEvent (tbl : OrderTable) : MarketEvent → OrderTable
  | .listedEv e => handleListed tbl e
  | .cancelledEv lid tx => handleCancelled tbl lid tx
  | .soldEv lid buyer tx => handleSold tbl lid buyer tx

/-- Apply a sequence of events in order, as the scan loop does for the logs
of a sub-range. -/
def applyEvents (tbl : OrderTable) (evs : List MarketEvent) : OrderTable :=
  evs.foldl applyEvent tbl

/-- The listing id an event is keyed on. -/
def eventListingID : MarketEvent → Int
  | .listedEv e => e.listingID
  | .cancelledEv lid _ => lid
  | .soldEv lid _ _ => lid

/-! ### Redis distributed lock (internal/lock, `part_001`) -/

/-- The Redis key space the lock uses: each key maps to its string value
together with an absolute expiry instant (Redis treats a key whose expiry
has passed exactly like an absent key). -/
def KV : Type := String → Option (String × Nat)

/-- The key space with no keys set. -/
def emptyKV : KV := fun _ => none

/-- The error `Acquire` returns when the key is already held
(`ErrLockNotAcquired`). -/
inductive LockErr
  | lockNotAcquired
deriving DecidableEq, Repr

/-- A held lock (`RedisLock`): the full key and the random value stored
under it, known only to the holder. -/
structure RedisLock where
  key : String
  value : String
deriving DecidableEq, Repr

/-- Redis `SET key value NX EX ttl` at instant `now`: if the key is live
(present and unexpired) do nothing and report `false`; otherwise store the
value with expiry `now + ttl` and report `true`. -/
def setNX (kv : KV) (now : Nat) (k v : String) (ttl : Nat) : Bool × KV :=
  match kv k with
  | some (_, e) =>
      if now < e then (false, kv)
      else (true, fun k2 => if k2 = k then some (v, now + ttl) else kv k2)
  | none => (true, fun k2 => if k2 = k then some (v, now + ttl) else kv k2)

/-- `RedisLocker.Acquire` from `part_001`: build the full key from the
locker's prefix, draw a fresh random value (supplied here as the `value`
argument, standing for `randomLockValue()`), and `SetNX` it with the TTL.
On `false` it fails with `ErrLockNotAcquired`; on `true` it returns a
`RedisLock` recording the full key and the value. -/
def acquireLock (kv : KV) (now : Nat) (pfx key value : String) (ttl : Nat) :
    Except LockErr RedisLock × KV :=
  let fullKey := pfx ++ key
  match setNX kv now fullKey value ttl with
  | (false, kv2) => (.error .lockNotAcquired, kv2)
  | (true, kv2) => (.ok ⟨fullKey, value⟩, kv2)

/-- `RedisLock.Release` from `part_001`: the Lua script
`if GET k == v then DEL k`, executed atomically (modelled as one pure
state transition). A `GET` on an absent or expired key yields nil and the
script leaves the store untouched. -/
def releaseLock (kv : KV) (now : Nat) (l : RedisLock) : KV :=
  match kv l.key with
  | some (v, e) =>
      if now < e ∧ v = l.value then
        fun k2 => if k2 = l.key then none else kv k2
      else kv
  | none => kv

/-! ### Scanner poll loop (`MarketplaceScanner.Run`, `part_004`) -/

/-- Outcome of one `FilterLogs(from, to)` call as the loop distinguishes
them: success, the provider's "limit exceeded" rejection, or any other
error. The returned logs feed `handleLog`, which never alters the control
flow (handler errors are logged and the batch continues), so the payload
is irrelevant to the watermark and omitted. -/
inductive QueryOutcome
  | ok
  | limitExceeded
  | otherError
deriving DecidableEq, Repr

/-- The inner batch loop of `Run` for one tick: starting at `fromB` with
the given `batchSize` and watermark `lastScanned`, repeatedly query
`[fromB, min (fromB + batchSize - 1) latest]`.
On `limitExceeded` with batch size above 1, halve the batch size (floored
at 1, the code's `if batchSize < 1` clamp) and retry the same starting
block; at batch size 1, skip the sub-range: set the watermark to its end
and continue after it. On any other error, stop the tick with the current
watermark. On success, set the watermark to the sub-range's end and
continue. The batch size is clamped to at least 1 on entry, which the
code guarantees at every reachable call (`maxBatchBlocks = 100`, and the
halving branch floors at 1). -/
def scanLoop (query : Nat → Nat → QueryOutcome) (latest : Nat) :
    Nat → Nat → Nat → Nat
  | fromB, batchSize, lastScanned =>
    if _hle : fromB ≤ latest then
      let b := max batchSize 1
      let toB := min (fromB + b - 1) latest
      match query fromB toB with
      | .limitExceeded =>
          if hb : 1 < b then
            scanLoop query latest fromB (max (b / 2) 1) lastScanned
          else
            scanLoop query latest (toB + 1) b toB
      | .otherError => lastScanned
      | .ok => scanLoop query latest (toB + 1) b toB
    else lastScanned
  termination_by fromB batchSize _ => 2 * (latest + 1 - fromB) + batchSize
  decreasing_by
    all_goals omega

/-- One tick of `Run`: read the head (`latest`); if it is not beyond the
watermark, do nothing; otherwise scan `(lastScanned, latest]` starting at
`lastScanned + 1` with the configured `maxBatchBlocks`, returning the new
watermark. -/
def scanTick (query : Nat → Nat → QueryOutcome) (latest lastScanned maxBatchBlocks : Nat) :
    Nat :=
  if latest ≤ lastScanned then lastScanned
  else scanLoop query latest (lastScanned + 1) maxBatchBlocks lastScanned

/-! ### Theorems: scanner handler algebra -/

/-- An upsert stores its record under the record's listing id. -/
theorem upsertOrder_self (tbl : OrderTable) (o : Order) :
    upsertOrder tbl o o.listingID = some o := by
  simp [upsertOrder]

/-- An upsert leaves every other key unchanged. -/
theorem upsertOrder_other (tbl : OrderTable) (o : Order) (lid : Int)
    (h : lid ≠ o.listingID) : upsertOrder tbl o lid = tbl lid := by
  simp [upsertOrder, h]

/-- C4. For every Listed, Cancelled, or Sold event and every starting
table, applying the event's handler twice in succession yields the same
stored row for its listing id as applying it once: the handlers are
idempotent because the second application reads back exactly the row the
first one upserted (or re-upserts the same event-derived record), and the
upsert is keyed on `listing_id`. -/
theorem applyEvent_idempotent (tbl : OrderTable) (ev : MarketEvent) :
    applyEvent (applyEvent tbl ev) ev (eventListingID ev)
      = applyEvent tbl ev (eventListingID ev) := by
  cases ev with
  | listedEv e =>
      simp [applyEvent, handleListed, eventListingID, upsertOrder, listedOrder]
  | cancelledEv lid tx =>
      simp only [applyEvent, eventListingID, handleCancelled, handleCancelledCore]
      cases htbl : tbl lid with
      | none =>
          simp [lookupOrder, htbl, upsertOrder, cancelledOrder]
      | some o =>
          by_cases hk : lid = o.listingID
          · subst hk
            simp [lookupOrder, htbl, upsertOrder, cancelledOrder]
          · simp [lookupOrder, htbl, upsertOrder, cancelledOrder, hk]
  | soldEv lid buyer tx =>
      simp only [applyEvent, eventListingID, handleSold, handleSoldCore]
      cases htbl : tbl lid with
      | none =>
          simp [lookupOrder, htbl, upsertOrder, soldOrder]
      | some o =>
          by_cases hk : lid = o.listingID
          · subst hk
            simp [lookupOrder, htbl, upsertOrder, soldOrder]
          · simp [lookupOrder, htbl, upsertOrder, soldOrder, hk]

/-! ### Theorems: distributed lock -/

/-- C5. Release is an atomic compare-and-delete, idempotent and safe under
TTL races: (i) releasing twice equals releasing once; (ii) when the key
currently holds a live value different from the handle's (a stale or
foreign value after TTL expiry and re-acquisition), release leaves the
whole key space unchanged; (iii) release never touches any key other than
the handle's; (iv) when the key holds the handle's own live value, release
deletes it. The check and the delete are one state transition
(`releaseLock`), so no interleaving can separate them. -/
theorem releaseLock_compare_and_delete (kv : KV) (now : Nat) (l : RedisLock) :
    releaseLock (releaseLock kv now l) now l = releaseLock kv now l
    ∧ (∀ v e, kv l.key = some (v, e) → v ≠ l.value → releaseLock kv now l = kv)
    ∧ (∀ k, k ≠ l.key → releaseLock kv now l k = kv k)
    ∧ (∀ e, kv l.key = some (l.value, e) → now < e → releaseLock kv now l l.key = none) := by
  refine ⟨?_, ?_, ?_, ?_⟩
  · cases hk : kv l.key with
    | none => simp [releaseLock, hk]
    | some ve =>
        obtain ⟨v, e⟩ := ve
        by_cases hc : now < e ∧ v = l.value
        · have h1 : releaseLock kv now l
              = fun k2 => if k2 = l.key then none else kv k2 := by
            simp [releaseLock, hk, hc]
          rw [h1]
          simp [releaseLock]
        · simp [releaseLock, hk, hc]
  · intro v e hk hv
    simp [releaseLock, hk, hv]
  · intro k hne
    cases hk : kv l.key with
    | none => simp [releaseLock, hk]
    | some ve =>
        obtain ⟨v, e⟩ := ve
        by_cases hc : now < e ∧ v = l.value
        · simp [releaseLock, hk, hc, hne]
        · simp [releaseLock, hk, hc]
  · intro e hk hlt
    simp [releaseLock, hk, hlt]

/-- Witness for C5: in a key space where `lock:a` holds the live value
`v1`, a release with the stale handle value `v2` leaves the key space
unchanged. -/
theorem releaseLock_compare_and_delete_witness :
    releaseLock (fun k => if k = "lock:a" then some ("v1", 10) else none) 5
        ⟨"lock:a", "v2"⟩
      = fun k => if k = "lock:a" then some ("v1", 10) else none :=
  (releaseLock_compare_and_delete
      (fun k => if k = "lock:a" then some ("v1", 10) else none) 5
      ⟨"lock:a", "v2"⟩).2.1 "v1" 10 (by simp) (by decide)

/-- C6. Acquire is `SetNX` with a fresh value and TTL: (i) if the full key
is live (present, unexpired), acquire fails immediately with
`ErrLockNotAcquired` and the key space is completely unchanged (no
blocking, no retry, no write); (ii) if the full key is absent — or its
entry has expired, which Redis treats as absent — acquire stores the fresh
value under the full key with expiry `now + ttl`, leaves every other key
unchanged, and returns a handle recording the full key and that value. -/
theorem acquireLock_setnx_semantics (kv : KV) (now : Nat) (pfx key value : String)
    (ttl : Nat) :
    (∀ v e, kv (pfx ++ key) = some (v, e) → now < e →
        acquireLock kv now pfx key value ttl = (.error .lockNotAcquired, kv))
    ∧ (kv (pfx ++ key) = none →
        (acquireLock kv now pfx key value ttl).1 = .ok ⟨pfx ++ key, value⟩
        ∧ (acquireLock kv now pfx key value ttl).2 (pfx ++ key) = some (value, now + ttl)
        ∧ ∀ k, k ≠ pfx ++ key → (acquireLock kv now pfx key value ttl).2 k = kv k)
    ∧ (∀ v e, kv (pfx ++ key) = some (v, e) → e ≤ now →
        (acquireLock kv now pfx key value ttl).1 = .ok ⟨pfx ++ key, value⟩
        ∧ (acquireLock kv now pfx key value ttl).2 (pfx ++ key) = some (value, now + ttl)
        ∧ ∀ k, k ≠ pfx ++ key → (acquireLock kv now pfx key value ttl).2 k = kv k) := by
  refine ⟨?_, ?_, ?_⟩
  · intro v e hk hlt
    simp [acquireLock, setNX, hk, hlt]
  · intro hk
    refine ⟨?_, ?_, ?_⟩
    · simp [acquireLock, setNX, hk]
    · simp [acquireLock, setNX, hk]
    · intro k hne
      simp [acquireLock, setNX, hk, hne]
  · intro v e hk hle
    have hnlt : ¬ now < e := by omega
    refine ⟨?_, ?_, ?_⟩
    · simp [acquireLock, setNX, hk, hnlt]
    · simp [acquireLock, setNX, hk, hnlt]
    · intro k hne
      simp [acquireLock, setNX, hk, hnlt, hne]

/-- Witness for C6: on the empty key space, acquiring `lock:` + `a` at
instant 0 with TTL 30 succeeds with a handle recording the fresh value,
stores it under `lock:a` expiring at 30, and leaves `lock:b` absent. -/
theorem acquireLock_setnx_semantics_witness :
    (acquireLock emptyKV 0 "lock:" "a" "v1" 30).1 = .ok ⟨"lock:" ++ "a", "v1"⟩
    ∧ (acquireLock emptyKV 0 "lock:" "a" "v1" 30).2 ("lock:" ++ "a") = some ("v1", 0 + 30)
    ∧ (acquireLock emptyKV 0 "lock:" "a" "v1" 30).2 "lock:b" = emptyKV "lock:b" := by
  have h := (acquireLock_setnx_semantics emptyKV 0 "lock:" "a" "v1" 30).2.1 (by rfl)
  exact ⟨h.1, h.2.1, h.2.2 "lock:b" (by decide)⟩

/-! ### Theorems: scan watermark -/

/-- Unfolding `scanLoop`: range-limit rejection above batch size 1 halves
the batch and retries the same starting block. -/
theorem scanLoop_unfold_halve (q : Nat → Nat → QueryOutcome)
    (latest fromB batchSize last : Nat) (hle : fromB ≤ latest)
    (hq : q fromB (min (fromB + max batchSize 1 - 1) latest) = .limitExceeded)
    (hb : 1 < max batchSize 1) :
    scanLoop q latest fromB batchSize last
      = scanLoop q latest fromB (max (max batchSize 1 / 2) 1) last := by
  rw [scanLoop]
  simp [hle, hq, hb]

/-- Unfolding `scanLoop`: range-limit rejection at the batch-size floor
skips the sub-range, sets the watermark to its end and continues after
it. -/
theorem scanLoop_unfold_skip (q : Nat → Nat → QueryOutcome)
    (latest fromB batchSize last : Nat) (hle : fromB ≤ latest)
    (hq : q fromB (min (fromB + max batchSize 1 - 1) latest) = .limitExceeded)
    (hb : ¬ 1 < max batchSize 1) :
    scanLoop q latest fromB batchSize last
      = scanLoop q latest (min (fromB + max batchSize 1 - 1) latest + 1)
          (max batchSize 1) (min (fromB + max batchSize 1 - 1) latest) := by
  rw [scanLoop]
  simp [hle, hq, hb]

/-- Unfolding `scanLoop`: a non-limit error ends the tick with the current
watermark. -/
theorem scanLoop_unfold_error (q : Nat → Nat → QueryOutcome)
    (latest fromB batchSize last : Nat) (hle : fromB ≤ latest)
    (hq : q fromB (min (fromB + max batchSize 1 - 1) latest) = .otherError) :
    scanLoop q latest fromB batchSize last = last := by
  rw [scanLoop]
  simp [hle, hq]

/-- Unfolding `scanLoop`: a successful query advances the watermark to the
sub-range's end and continues after it. -/
theorem scanLoop_unfold_ok (q : Nat → Nat → QueryOutcome)
    (latest fromB batchSize last : Nat) (hle : fromB ≤ latest)
    (hq : q fromB (min (fromB + max batchSize 1 - 1) latest) = .ok) :
    scanLoop q latest fromB batchSize last
      = scanLoop q latest (min (fromB + max batchSize 1 - 1) latest + 1)
          (max batchSize 1) (min (fromB + max batchSize 1 - 1) latest) := by
  rw [scanLoop]
  simp [hle, hq]

/-- Unfolding `scanLoop`: past the head, the loop exits with the current
watermark. -/
theorem scanLoop_unfold_done (q : Nat → Nat → QueryOutcome)
    (latest fromB batchSize last : Nat) (hle : ¬ fromB ≤ latest) :
    scanLoop q latest fromB batchSize last = last := by
  rw [scanLoop]
  simp [hle]

/-- The batch loop never lowers the watermark below its input value, for
every query oracle, provided the loop starts strictly after the watermark
(as `Run` does with `from = lastScanned + 1`). -/
theorem scanLoop_watermark_le (q : Nat → Nat → QueryOutcome) (latest : Nat) :
    ∀ fromB b last, last < fromB → last ≤ scanLoop q latest fromB b last := by
  intro fromB b last
  induction fromB, b, last using scanLoop.induct q latest with
  | case1 fromB batchSize last hle bb toB hq hb ih =>
      intro hlt
      rw [scanLoop_unfold_halve q latest fromB batchSize last hle hq hb]
      exact ih hlt
  | case2 fromB batchSize last hle bb toB hq hb ih =>
      intro hlt
      rw [scanLoop_unfold_skip q latest fromB batchSize last hle hq hb]
      have h1 : 1 ≤ max batchSize 1 := le_max_right _ _
      have htoB : last ≤ min (fromB + max batchSize 1 - 1) latest := by omega
      have ih2 : min (fromB + max batchSize 1 - 1) latest
          ≤ scanLoop q latest (min (fromB + max batchSize 1 - 1) latest + 1)
              (max batchSize 1) (min (fromB + max batchSize 1 - 1) latest) :=
        ih (Nat.lt_succ_self _)
      exact le_trans htoB ih2
  | case3 fromB batchSize last hle bb toB hq =>
      intro hlt
      rw [scanLoop_unfold_error q latest fromB batchSize last hle hq]
  | case4 fromB batchSize last hle bb toB hq ih =>
      intro hlt
      rw [scanLoop_unfold_ok q latest fromB batchSize last hle hq]
      have h1 : 1 ≤ max batchSize 1 := le_max_right _ _
      have htoB : last ≤ min (fromB + max batchSize 1 - 1) latest := by omega
      have ih2 : min (fromB + max batchSize 1 - 1) latest
          ≤ scanLoop q latest (min (fromB + max batchSize 1 - 1) latest + 1)
              (max batchSize 1) (min (fromB + max batchSize 1 - 1) latest) :=
        ih (Nat.lt_succ_self _)
      exact le_trans htoB ih2
  | case5 fromB batchSize last hle =>
      intro hlt
      rw [scanLoop_unfold_done q latest fromB batchSize last hle]

/-- C7. Across every tick of the scanner's poll loop and for every query
oracle — including ticks in which range-limit rejections trigger batch
halving or sub-range skips at batch size 1, and ticks ended early by other
errors — the watermark returned by the tick is never below the watermark
it started from. -/
theorem scanTick_watermark_monotone (q : Nat → Nat → QueryOutcome)
    (latest lastScanned maxBatchBlocks : Nat) :
    lastScanned ≤ scanTick q latest lastScanned maxBatchBlocks := by
  unfold scanTick
  by_cases h : latest ≤ lastScanned
  · simp [h]
  · simp only [h, if_false]
    exact scanLoop_watermark_le q latest (lastScanned + 1) maxBatchBlocks lastScanned
      (Nat.lt_succ_self lastScanned)

/-- C8. Behaviour of the batch loop under the provider's range-limit
rejection, for any batch size of at least 1 (all reachable ones): above
the floor, the loop halves the batch size — which stays at least 1 — and
retries from the same starting block with the same watermark; at the
floor (batch size 1), the sub-range is the single block `fromB`, and the
loop skips it, advances the watermark to `fromB` (past the skipped
sub-range) and continues with the next sub-range at `fromB + 1`. -/
theorem scanLoop_limit_halves_then_skips (q : Nat → Nat → QueryOutcome)
    (latest fromB b last : Nat) (hb1 : 1 ≤ b) (hle : fromB ≤ latest)
    (hq : q fromB (min (fromB + b - 1) latest) = .limitExceeded) :
    (1 < b →
        scanLoop q latest fromB b last = scanLoop q latest fromB (b / 2) last
        ∧ 1 ≤ b / 2)
    ∧ (b = 1 →
        min (fromB + b - 1) latest = fromB
        ∧ scanLoop q latest fromB b last = scanLoop q latest (fromB + 1) 1 fromB) := by
  have hmax : max b 1 = b := Nat.max_eq_left hb1
  constructor
  · intro hb
    have hdiv : 1 ≤ b / 2 := by omega
    have hmax2 : max (b / 2) 1 = b / 2 := Nat.max_eq_left hdiv
    refine ⟨?_, hdiv⟩
    have h := scanLoop_unfold_halve q latest fromB b last hle (by rw [hmax]; exact hq)
      (by rw [hmax]; exact hb)
    rw [hmax, hmax2] at h
    exact h
  · intro hb
    subst hb
    have hto : min (fromB + 1 - 1) latest = fromB := by omega
    refine ⟨hto, ?_⟩
    have h := scanLoop_unfold_skip q latest fromB 1 last hle (by simp only [hmax]; exact hq)
      (by omega)
    simp only [hmax, hto] at h
    exact h

/-- Witness for C8: with an oracle that always reports the range limit,
head 9, starting block 2, batch size 4: the loop halves to 2 and retries
block 2; and at batch size 1 it skips block 2, advancing the watermark to
2 and continuing from 3. -/
theorem scanLoop_limit_halves_then_skips_witness :
    (scanLoop (fun _ _ => .limitExceeded) 9 2 4 0
        = scanLoop (fun _ _ => .limitExceeded) 9 2 2 0
      ∧ 1 ≤ 4 / 2)
    ∧ (min (2 + 1 - 1) 9 = 2
      ∧ scanLoop (fun _ _ => .limitExceeded) 9 2 1 0
          = scanLoop (fun _ _ => .limitExceeded) 9 3 1 2) := by
  constructor
  · exact (scanLoop_limit_halves_then_skips (fun _ _ => .limitExceeded) 9 2 4 0
      (by omega) (by omega) rfl).1 (by omega)
  · exact (scanLoop_limit_halves_then_skips (fun _ _ => .limitExceeded) 9 2 1 0
      (by omega) (by omega) rfl).2 rfl

/-! ### Theorems: terminal-state handling in the scanner handlers -/

/-- C1 (code evaluated at the failing input). The handlers contain no
terminal-state guard: starting from an empty table, a `Sold` event for
listing 1 stores status `SUCCESS`, and a subsequent `Cancelled` event for
the same listing overwrites it to `CANCELED` — `handleCancelled` sets the
status unconditionally after the lookup, flipping one terminal state to
the other instead of skipping the update. -/
theorem handleCancelled_flips_success_at_listing1 :
    (handleSold emptyOrderTable 1 "0xBB" "0xs1" 1).map Order.status
      = some OrderStatus.success
    ∧ (handleCancelled (handleSold emptyOrderTable 1 "0xBB" "0xs1") 1 "0xc1" 1).map
        Order.status = some OrderStatus.canceled := by
  constructor
  · rfl
  · rfl

/-- The `Listed` event used in the divergence example for C2: listing 1,
seller `0xAA`, price as a decimal wei string. -/
def listedEx : ListedEvent :=
  { listingID := 1
    seller := "0xAA"
    nftAddress := "0xNFT"
    tokenID := 1
    amount := 1
    price := "1000000000000000000"
    txHash := "0xt1" }

/-- C2 (code evaluated at the failing input). Applying `Sold` before
`Listed` for listing 1 does not converge to the chronological result:
chronological order ends with status `SUCCESS` and buyer `0xBB`, while
`Sold`-then-`Listed` ends with status `LISTED` and an empty buyer, because
`handleListed` overwrites every column unconditionally — including a
terminal `SUCCESS` status — so the two final rows differ. -/
theorem soldThenListed_diverges_from_listedThenSold :
    applyEvents emptyOrderTable [.soldEv 1 "0xBB" "0xt2", .listedEv listedEx] 1
      = some (listedOrder listedEx)
    ∧ applyEvents emptyOrderTable [.listedEv listedEx, .soldEv 1 "0xBB" "0xt2"] 1
      = some { listedOrder listedEx with
                buyer := "0xBB", status := .success, txHash := "0xt2" }
    ∧ applyEvents emptyOrderTable [.soldEv 1 "0xBB" "0xt2", .listedEv listedEx] 1
      ≠ applyEvents emptyOrderTable [.listedEv listedEx, .soldEv 1 "0xBB" "0xt2"] 1 := by
  refine ⟨rfl, rfl, ?_⟩
  decide

/-- C10. The `Cancelled` and `Sold` handlers take their not-found fallback
on every lookup failure, not only on a missing row: whatever the lookup
error (`sql.ErrNoRows` or a transport/database failure while a populated
row exists) and whatever the table contents, the handler upserts the
minimal placeholder keyed by the listing id — so the stored row's non-key
columns (seller, price, token fields, ...) are all overwritten with zero
values — instead of propagating the lookup error. -/
theorem handlers_fallback_on_any_lookup_error (err : DbErr) (tbl : OrderTable)
    (lid : Int) (buyer tx : String) :
    handleCancelledCore tbl lid tx (.error err) lid
      = some { listingID := lid, seller := "", buyer := "", nftName := "",
               nftAddress := "", url := "", tokenID := 0, amount := 0, price := "",
               status := .canceled, txHash := tx, deleted := 0 }
    ∧ handleSoldCore tbl lid buyer tx (.error err) lid
      = some { listingID := lid, seller := "", buyer := buyer, nftName := "",
               nftAddress := "", url := "", tokenID := 0, amount := 0, price := "",
               status := .success, txHash := tx, deleted := 0 } := by
  constructor
  · simp [handleCancelledCore, cancelledOrder, upsertOrder]
  · simp [handleSoldCore, soldOrder, upsertOrder]

/-! ### NftAsset store (`part_003`) -/

/-- The `NftAsset` Go struct from the asset store: plain `int64`/`string`
fields; the source comments state that 0 / empty stands for a DB `NULL`
("0 means not minted yet when NULL in DB"). -/
structure NftAsset where
  id : Int
  name : String
  owner : String
  cid : String
  url : String
  tokenID : Int
  nftAddress : String
  amount : Int
  deleted : Int
deriving DecidableEq, Repr

/-- A persisted `nft_assets` row: `token_id`, `nft_address`, `amount` are
nullable columns (`DEFAULT NULL` in the schema), so they carry `Option`
values at the database level. -/
structure NftAssetRow where
  id : Int
  name : String
  owner : String
  cid : String
  url : String
  tokenID : Option Int
  nftAddress : Option String
  amount : Option Int
  deleted : Int
deriving DecidableEq, Repr

/-- The row `Insert` writes for an asset (with the store-assigned id
supplied): per the source, `sql.NullInt64{Valid: a.TokenID != 0}` and
`sql.NullString{Valid: a.NFTAddress != ""}` — a zero/empty interface value
is stored as SQL `NULL`. -/
def insertRow (newId : Int) (a : NftAsset) : NftAssetRow :=
  { id := newId
    name := a.name
    owner := a.owner
    cid := a.cid
    url := a.url
    tokenID := if a.tokenID ≠ 0 then some a.tokenID else none
    nftAddress := if a.nftAddress ≠ "" then some a.nftAddress else none
    amount := if a.amount ≠ 0 then some a.amount else none
    deleted := a.deleted }

/-- The asset `GetByID` / `GetByNFT` return for a row: the `SELECT` wraps
the nullable columns in `IFNULL(token_id, 0)`, `IFNULL(nft_address, '')`,
`IFNULL(amount, 0)`, mapping `NULL` back to the zero/empty sentinels. -/
def assetFromRow (r : NftAssetRow) : NftAsset :=
  { id := r.id
    name := r.name
    owner := r.owner
    cid := r.cid
    url := r.url
    tokenID := r.tokenID.getD 0
    nftAddress := r.nftAddress.getD ""
    amount := r.amount.getD 0
    deleted := r.deleted }

/-- The `nft_assets` table as the list of its rows. -/
def AssetTable : Type := List NftAssetRow

/-- The SQL match `WHERE nft_address = ? AND token_id = ?`: a `NULL`
column never matches. -/
def rowMatchesNFT (r : NftAssetRow) (addr : String) (tid : Int) : Prop :=
  r.nftAddress = some addr ∧ r.tokenID = some tid

instance (r : NftAssetRow) (addr : String) (tid : Int) :
    Decidable (rowMatchesNFT r addr tid) := by
  unfold rowMatchesNFT
  infer_instance

/-- `softDeleteByNFT` from `part_003`: `UPDATE nft_assets SET deleted = 1
WHERE nft_address = ? AND token_id = ?`. -/
def softDeleteByNFT (tbl : AssetTable) (addr : String) (tid : Int) : AssetTable :=
  tbl.map fun r => if rowMatchesNFT r addr tid then { r with deleted := 1 } else r

/-- `restoreByNFT` from `part_003`: `UPDATE nft_assets SET deleted = 0
WHERE nft_address = ? AND token_id = ?`. -/
def restoreByNFT (tbl : AssetTable) (addr : String) (tid : Int) : AssetTable :=
  tbl.map fun r => if rowMatchesNFT r addr tid then { r with deleted := 0 } else r

/-- `updateOwnerByNFT` from `part_003`: `UPDATE nft_assets SET owner = ?,
deleted = 0 WHERE nft_address = ? AND token_id = ?`. -/
def updateOwnerByNFT (tbl : AssetTable) (addr : String) (tid : Int)
    (newOwner : String) : AssetTable :=
  tbl.map fun r =>
    if rowMatchesNFT r addr tid then { r with owner := newOwner, deleted := 0 } else r

/-- C9 counterexample. The read path does not preserve the unset-versus-
zero distinction: two distinct stored rows — one with `token_id`,
`nft_address`, `amount` all `NULL` (never minted) and one with the bound
values 0, `''`, 0 — are returned by `GetByID` as the same asset, both with
`token_id = 0`, `nft_address = ''`, `amount = 0`. (In the other direction
`Insert` cannot even store the bound value 0: it writes `NULL` for it.) -/
theorem assetRead_conflates_null_and_zero :
    ({ id := 7, name := "img", owner := "0xAA", cid := "c1", url := "u1",
       tokenID := none, nftAddress := none, amount := none,
       deleted := 0 } : NftAssetRow)
      ≠ ({ id := 7, name := "img", owner := "0xAA", cid := "c1", url := "u1",
           tokenID := some 0, nftAddress := some "", amount := some 0,
           deleted := 0 } : NftAssetRow)
    ∧ assetFromRow
        { id := 7, name := "img", owner := "0xAA", cid := "c1", url := "u1",
          tokenID := none, nftAddress := none, amount := none, deleted := 0 }
      = assetFromRow
        { id := 7, name := "img", owner := "0xAA", cid := "c1", url := "u1",
          tokenID := some 0, nftAddress := some "", amount := some 0, deleted := 0 } := by
  constructor
  · decide
  · rfl

/-- C9 as amended. At the record-store interface the unset state is
represented by the sentinel values themselves: `Insert` stores the
interface values 0 / `''` / 0 as SQL `NULL` (and only non-zero values as
real column values), reads map `NULL` back to 0 / `''` / 0, and the
insert-then-read round trip returns every asset unchanged — so "unset" and
"zero" are indistinguishable at the interface, and the `NULL` distinction
exists only at the column level. -/
theorem assetInsert_roundTrip_sentinel (newId : Int) (a : NftAsset) :
    assetFromRow (insertRow newId a) = { a with id := newId }
    ∧ ((insertRow newId a).tokenID = none ↔ a.tokenID = 0)
    ∧ ((insertRow newId a).nftAddress = none ↔ a.nftAddress = "")
    ∧ ((insertRow newId a).amount = none ↔ a.amount = 0) := by
  refine ⟨?_, ?_, ?_, ?_⟩
  · by_cases ht : a.tokenID = 0 <;> by_cases ha : a.amount = 0 <;>
      by_cases hn : a.nftAddress = "" <;>
      simp [insertRow, assetFromRow, ht, ha, hn]
  · by_cases ht : a.tokenID = 0 <;> simp [insertRow, ht]
  · by_cases hn : a.nftAddress = "" <;> simp [insertRow, hn]
  · by_cases ha : a.amount = 0 <;> simp [insertRow, ha]

/-! ### API-driven order-status update (modelled from the spec) -/

/-- A terminal status: `SUCCESS` or `CANCELED`. -/
def isTerminal (s : OrderStatus) : Prop := s = .success ∨ s = .canceled

instance (s : OrderStatus) : Decidable (isTerminal s) := by
  unfold isTerminal
  infer_instance

/-- The terminal-state invariant violated by a requested transition: the
current status is terminal and the request asks for the other terminal
status. -/
def terminalConflict (cur next : OrderStatus) : Prop :=
  isTerminal cur ∧ isTerminal next ∧ next ≠ cur

instance (cur next : OrderStatus) : Decidable (terminalConflict cur next) := by
  unfold terminalConflict
  infer_instance

/-- The combined persistent state the status-update path touches: the lock
key space, the `orders` table and the `nft_assets` table. -/
structure AppState where
  locks : KV
  orders : OrderTable
  assets : AssetTable

/-- The lock-key prefix the repository uses for order writes. -/
def orderLockKey (lid : Int) : String := "nft_market:order:" ++ toString lid

/-- Modelled from the spec: the companion `nft_assets` transition committed
together with an order-status write (the status-update HTTP handler is not
among the files under `src/`; its store callees are, in `part_003`). Per
the spec's asset lifecycle, moving to `LISTED` soft-deletes the asset
(listed NFTs leave the "available" list), `CANCELED` restores it, and
`SUCCESS` reassigns ownership to the buyer and clears the deleted flag;
other statuses touch no asset row. -/
def assetTransition (tbl : AssetTable) (o : Order) (next : OrderStatus)
    (buyer : String) : AssetTable :=
  match next with
  | .listed => softDeleteByNFT tbl o.nftAddress o.tokenID
  | .canceled => restoreByNFT tbl o.nftAddress o.tokenID
  | .success => updateOwnerByNFT tbl o.nftAddress o.tokenID buyer
  | _ => tbl

/-- The result returned to the HTTP caller by the status-update path. -/
inductive UpdateResult
  | retryLock
  | notFound
  | conflictSkipped
  | okUpdated
deriving DecidableEq, Repr

/-- Modelled from the spec: the `update-order-status(listingId, newStatus,
buyer)` operation (`POST /api/v1/orders/:listingId/status`), whose handler
the repository documents in `main.go` but whose source is not under
`src/` — only its callees are (`lock.Acquire`/`Release` in `part_001`,
`GetByIDForUpdateTx`/`UpsertTx` in order_store.go, the `*Tx` asset
mutations in `part_003`). Protocol per the spec: acquire the distributed
lock for the listing id (with a fresh random value and a TTL); on failure
tell the caller to retry, changing nothing. Otherwise, inside a single
store transaction: re-read the order with a row lock; validate the
requested transition against the terminal-state invariant, skipping the
write on a conflict; else write the order upsert together with the
companion asset transition; commit (modelled as the simultaneous state
update), then release the lock by compare-and-delete. -/
def updateOrderStatus (st : AppState) (now : Nat) (freshValue : String)
    (lid : Int) (newStatus : OrderStatus) (buyer : String) (ttl : Nat) :
    UpdateResult × AppState :=
  match acquireLock st.locks now "nft_market:order:" (toString lid) freshValue ttl with
  | (.error _, _) => (.retryLock, st)
  | (.ok handle, locks1) =>
    match st.orders lid with
    | none => (.notFound, { st with locks := releaseLock locks1 now handle })
    | some existing =>
      if terminalConflict existing.status newStatus then
        (.conflictSkipped, { st with locks := releaseLock locks1 now handle })
      else
        let updated := { existing with
          status := newStatus
          buyer := if newStatus = .success then buyer else existing.buyer }
        (.okUpdated,
          { locks := releaseLock locks1 now handle
            orders := upsertOrder st.orders updated
            assets := assetTransition st.assets existing newStatus buyer })

/-- C3. The update-order-status operation follows the locked-transaction
protocol: (i) when the listing's lock key is already held (live), the
caller is told to retry and no state changes at all; (ii) when the lock
key is free (and the TTL positive), the operation always ends with the
lock key released and no other lock key touched, and — inside the single
transaction — a missing order yields not-found with the store untouched, a
transition violating the terminal-state invariant is skipped with the
store untouched, and a valid transition commits the order upsert together
with the companion asset ownership/delete-flag transition. -/
theorem updateOrderStatus_protocol (st : AppState) (now : Nat) (fv : String)
    (lid : Int) (ns : OrderStatus) (buyer : String) (ttl : Nat) :
    (∀ v e, st.locks (orderLockKey lid) = some (v, e) → now < e →
        updateOrderStatus st now fv lid ns buyer ttl = (.retryLock, st))
    ∧ (st.locks (orderLockKey lid) = none → 0 < ttl →
        (updateOrderStatus st now fv lid ns buyer ttl).2.locks (orderLockKey lid) = none
        ∧ (∀ k, k ≠ orderLockKey lid →
            (updateOrderStatus st now fv lid ns buyer ttl).2.locks k = st.locks k)
        ∧ (st.orders lid = none →
            (updateOrderStatus st now fv lid ns buyer ttl).1 = .notFound
            ∧ (updateOrderStatus st now fv lid ns buyer ttl).2.orders = st.orders
            ∧ (updateOrderStatus st now fv lid ns buyer ttl).2.assets = st.assets)
        ∧ (∀ o, st.orders lid = some o → terminalConflict o.status ns →
            (updateOrderStatus st now fv lid ns buyer ttl).1 = .conflictSkipped
            ∧ (updateOrderStatus st now fv lid ns buyer ttl).2.orders = st.orders
            ∧ (updateOrderStatus st now fv lid ns buyer ttl).2.assets = st.assets)
        ∧ (∀ o, st.orders lid = some o → ¬ terminalConflict o.status ns →
            (updateOrderStatus st now fv lid ns buyer ttl).1 = .okUpdated
            ∧ (updateOrderStatus st now fv lid ns buyer ttl).2.orders
              = upsertOrder st.orders
                  { o with status := ns,
                           buyer := if ns = .success then buyer else o.buyer }
            ∧ (updateOrderStatus st now fv lid ns buyer ttl).2.assets
              = assetTransition st.assets o ns buyer)) := by
  constructor
  · intro v e hk hlt
    rw [show st.locks (orderLockKey lid)
        = st.locks ("nft_market:order:" ++ toString lid) from rfl] at hk
    simp [updateOrderStatus, acquireLock, setNX, hk, hlt]
  · intro hk httl
    rw [show st.locks (orderLockKey lid)
        = st.locks ("nft_market:order:" ++ toString lid) from rfl] at hk
    have hacq : acquireLock st.locks now "nft_market:order:" (toString lid) fv ttl
        = (.ok ⟨"nft_market:order:" ++ toString lid, fv⟩,
           fun k2 => if k2 = "nft_market:order:" ++ toString lid
             then some (fv, now + ttl) else st.locks k2) := by
      simp [acquireLock, setNX, hk]
    have hrel : releaseLock
        (fun k2 => if k2 = "nft_market:order:" ++ toString lid
          then some (fv, now + ttl) else st.locks k2) now
        ⟨"nft_market:order:" ++ toString lid, fv⟩
        = fun k2 => if k2 = "nft_market:order:" ++ toString lid
            then none else st.locks k2 := by
      have hlt : now < now + ttl := by omega
      funext k2
      by_cases hkk : k2 = "nft_market:order:" ++ toString lid
      · simp [releaseLock, hkk, hlt]
      · simp [releaseLock, hlt, hkk]
    refine ⟨?_, ?_, ?_, ?_, ?_⟩
    · cases ho : st.orders lid with
      | none => simp [updateOrderStatus, hacq, ho, hrel, orderLockKey]
      | some o =>
          by_cases hc : terminalConflict o.status ns
          · simp [updateOrderStatus, hacq, ho, hc, hrel, orderLockKey]
          · simp [updateOrderStatus, hacq, ho, hc, hrel, orderLockKey]
    · intro k hne
      rw [show k ≠ orderLockKey lid
          ↔ k ≠ "nft_market:order:" ++ toString lid from Iff.rfl] at hne
      cases ho : st.orders lid with
      | none => simp [updateOrderStatus, hacq, ho, hrel, hne]
      | some o =>
          by_cases hc : terminalConflict o.status ns
          · simp [updateOrderStatus, hacq, ho, hc, hrel, hne]
          · simp [updateOrderStatus, hacq, ho, hc, hrel, hne]
    · intro ho
      simp [updateOrderStatus, hacq, ho]
    · intro o ho hc
      simp [updateOrderStatus, hacq, ho, hc]
    · intro o ho hc
      simp [updateOrderStatus, hacq, ho, hc]

/-- Witness for C3, exercising both top-level branches of the protocol
theorem at concrete states. Retry branch: with the listing-7 lock key live
until instant 50, an update at instant 10 returns `retryLock` and leaves
the state unchanged. Success branch: on a state whose lock space is empty
and whose only order is listing 7 with status `LISTED`, an update to
`SUCCESS` returns `okUpdated` and ends with the lock key free. -/
theorem updateOrderStatus_protocol_witness :
    (updateOrderStatus
        ⟨fun k => if k = orderLockKey 7 then some ("zzz", 50) else none,
         fun l => if l = 7 then some (listedOrder listedEx) else none, []⟩
        10 "fv" 7 .success "0xBB" 30
      = (.retryLock,
          ⟨fun k => if k = orderLockKey 7 then some ("zzz", 50) else none,
           fun l => if l = 7 then some (listedOrder listedEx) else none, []⟩))
    ∧ (updateOrderStatus
        ⟨emptyKV, fun l => if l = 7 then some (listedOrder listedEx) else none, []⟩
        10 "fv" 7 .success "0xBB" 30).1 = .okUpdated
    ∧ (updateOrderStatus
        ⟨emptyKV, fun l => if l = 7 then some (listedOrder listedEx) else none, []⟩
        10 "fv" 7 .success "0xBB" 30).2.locks (orderLockKey 7) = none := by
  refine ⟨?_, ?_, ?_⟩
  · exact (updateOrderStatus_protocol
      ⟨fun k => if k = orderLockKey 7 then some ("zzz", 50) else none,
       fun l => if l = 7 then some (listedOrder listedEx) else none, []⟩
      10 "fv" 7 .success "0xBB" 30).1 "zzz" 50 (by simp) (by omega)
  · exact ((updateOrderStatus_protocol
      ⟨emptyKV, fun l => if l = 7 then some (listedOrder listedEx) else none, []⟩
      10 "fv" 7 .success "0xBB" 30).2 rfl (by omega)).2.2.2.2
        (listedOrder listedEx) (by simp) (by decide) |>.1
  · exact ((updateOrderStatus_protocol
      ⟨emptyKV, fun l => if l = 7 then some (listedOrder listedEx) else none, []⟩
      10 "fv" 7 .success "0xBB" 30).2 rfl (by omega)).1

end NftMarket
